import Mathlib

/-!
Verification of the compiler front end (lexer, parser, AST, diagnostics)
against its specification.

The C sources are shallowly embedded: each C function becomes a Lean
definition of the same name; mutation of the lexer/parser structs becomes
explicit state passing; diagnostics pushed into the `error_ctx` become a
`List error` returned by each operation (in push order); the `NULL`-or-node
results of the parser become `Option ast_node`.  C `int` values that can
leave the non-negative range are embedded as `Int`, with the one
truncating `uint64_t → int` conversion (the end-of-input token's span,
computed from `source->len - 1`) made explicit as arithmetic modulo 2^64
followed by a two's-complement reinterpretation of the low 32 bits.
Allocation-failure paths (`malloc` returning NULL) are not modelled.
-/

/-- C source `struct source_info` (error.h): a named, immutable source buffer.
`len` in C is set to the length of `raw` (`strlen`); here it is derived. -/
structure source_info where
  filename : String
  raw : List Char
deriving DecidableEq, Repr

/-- C source `source->len`. -/
def source_info.len (s : source_info) : Nat := s.raw.length

/-- C source `enum token_tag` (lexer.h), generated by `FOREACH_TOKEN` via
`GEN_TOKEN_ENUM` in declaration order. -/
inductive token_tag where
  | TOKEN_EOF
  | TOKEN_ERROR
  | TOKEN_KEYWORD_VAR
  | TOKEN_IDENT
  | TOKEN_INT_LIT
  | TOKEN_LPAREN
  | TOKEN_RPAREN
  | TOKEN_LCURLY
  | TOKEN_RCURLY
  | TOKEN_COLON
  | TOKEN_SEMICOLON
  | TOKEN_COMMA
deriving DecidableEq, Repr

/-- C source `token_tag_tostring` (lexer.c), generated by `FOREACH_TOKEN` via the
stringizing macro `GEN_TOKEN_STRING`. -/
def token_tag_tostring : token_tag → String
  | .TOKEN_EOF => "EOF"
  | .TOKEN_ERROR => "ERROR"
  | .TOKEN_KEYWORD_VAR => "KEYWORD_VAR"
  | .TOKEN_IDENT => "IDENT"
  | .TOKEN_INT_LIT => "INT_LIT"
  | .TOKEN_LPAREN => "LPAREN"
  | .TOKEN_RPAREN => "RPAREN"
  | .TOKEN_LCURLY => "LCURLY"
  | .TOKEN_RCURLY => "RCURLY"
  | .TOKEN_COLON => "COLON"
  | .TOKEN_SEMICOLON => "SEMICOLON"
  | .TOKEN_COMMA => "COMMA"

/-- C source `struct token` (lexer.h): `start`/`end` are C `int`; the field `end` is
renamed `stop` because `end` is a Lean keyword. -/
structure token where
  tag : token_tag
  start : Int
  stop : Int
deriving DecidableEq, Repr

/-- C source `struct error` (error.h): one diagnostic, a message formatted against a
source.  The `error_ctx` growable array is embedded as a `List error` in
insertion order; each embedded operation returns the (possibly empty) list
of entries it pushes, in push order. -/
structure error where
  source : source_info
  msg : String
deriving DecidableEq, Repr

/-- C source `struct lexer` (lexer.h) minus the `err_ctx` pointer (diagnostics are
returned, not stored).  `index` is a C `int` that starts at 0 and only
grows, so it is embedded as `Nat`. -/
structure lexer where
  source : source_info
  index : Nat
deriving DecidableEq, Repr

/-- C source `is_whitespace` (lexer.c). -/
def is_whitespace (c : Char) : Bool :=
  c = ' ' || c = '\n' || c = '\t'

/-- C source `is_number` (lexer.c). -/
def is_number (c : Char) : Bool :=
  '0' ≤ c && c ≤ '9'

/-- C source `is_alpha` (lexer.c). -/
def is_alpha (c : Char) : Bool :=
  ('a' ≤ c && c ≤ 'z') || ('A' ≤ c && c ≤ 'Z')

/-- C source `is_ident` (lexer.c). -/
def is_ident (c : Char) : Bool :=
  is_number c || is_alpha c || c = '_'

/-- The character the lexer reads at offset `i`; every read in the C code
is guarded by `i < len`, so the default is never observable. -/
def char_at (s : source_info) (i : Nat) : Char := s.raw.getD i ' '

/-- Fuel-driven core of the C scanning loop
`while (i < len && p(raw[i])) i++;`.  The fuel `len - i` supplied by
`scan_while` is exactly enough: the guard `i < len` fails no later than
the fuel runs out, see `scan_while_eq`. -/
def scan_fuel (p : Char → Bool) (s : source_info) : Nat → Nat → Nat
  | 0, i => i
  | fuel + 1, i => if i < s.len ∧ p (char_at s i) then scan_fuel p s fuel (i + 1) else i

/-- The scanning loop shared (verbatim, up to the predicate) by
`skip_whitespace`, `tokenize_ident` and `tokenize_num` in lexer.c. -/
def scan_while (p : Char → Bool) (s : source_info) (i : Nat) : Nat :=
  scan_fuel p s (s.len - i) i

/-- Characteristic equation of `scan_while`: it is the C loop. -/
theorem scan_while_eq (p : Char → Bool) (s : source_info) (i : Nat) :
    scan_while p s i =
      if i < s.len ∧ p (char_at s i) then scan_while p s (i + 1) else i := by
  unfold scan_while
  rcases h : s.len - i with _ | k
  · have hge : ¬ i < s.len := by omega
    simp [scan_fuel, hge]
  · have hk : s.len - (i + 1) = k := by omega
    simp [scan_fuel, hk]

theorem le_scan_while (p : Char → Bool) (s : source_info) (i : Nat) :
    i ≤ scan_while p s i := by
  generalize hm : s.len - i = m
  induction m generalizing i with
  | zero =>
    rw [scan_while_eq]
    have : ¬ i < s.len := by omega
    simp [this]
  | succ k ih =>
    rw [scan_while_eq]
    by_cases h : i < s.len ∧ p (char_at s i)
    · rw [if_pos h]
      have := ih (i + 1) (by omega)
      omega
    · simp [h]

theorem scan_while_le_len (p : Char → Bool) (s : source_info) (i : Nat)
    (h : i ≤ s.len) : scan_while p s i ≤ s.len := by
  generalize hm : s.len - i = m
  induction m generalizing i with
  | zero =>
    rw [scan_while_eq]
    have : ¬ i < s.len := by omega
    simp [this]; omega
  | succ k ih =>
    rw [scan_while_eq]
    by_cases hc : i < s.len ∧ p (char_at s i)
    · rw [if_pos hc]
      exact ih (i + 1) (by omega) (by omega)
    · simp [hc]; omega

theorem scan_while_stop (p : Char → Bool) (s : source_info) (i : Nat)
    (h : ¬ (i < s.len ∧ p (char_at s i))) : scan_while p s i = i := by
  rw [scan_while_eq]; simp [h]

theorem scan_while_step (p : Char → Bool) (s : source_info) (i : Nat)
    (h1 : i < s.len) (h2 : p (char_at s i)) :
    scan_while p s i = scan_while p s (i + 1) := by
  rw [scan_while_eq]; simp [h1, h2]

theorem scan_while_all (p : Char → Bool) (s : source_info) (i : Nat)
    (h : ∀ j, i ≤ j → j < s.len → p (char_at s j)) (hi : i ≤ s.len) :
    scan_while p s i = s.len := by
  generalize hm : s.len - i = m
  induction m generalizing i with
  | zero =>
    rw [scan_while_eq]
    have : ¬ i < s.len := by omega
    simp [this]; omega
  | succ k ih =>
    have hlt : i < s.len := by omega
    rw [scan_while_step p s i hlt (h i le_rfl hlt)]
    exact ih (i + 1) (fun j hj => h j (by omega)) (by omega) (by omega)

/-- Two's-complement reinterpretation of the low 32 bits of a natural
number: the (implementation-defined, but universal on mainstream targets)
C conversion of an unsigned value to a 32-bit `int`. -/
def to_int32 (x : Nat) : Int :=
  if x % 2 ^ 32 < 2 ^ 31 then ((x % 2 ^ 32 : Nat) : Int)
  else ((x % 2 ^ 32 : Nat) : Int) - 2 ^ 32

/-- The end-of-input token's `start` field: lexer.c computes
`lexer->source->len - 1` in `uint64_t` (wrapping to `2^64 - 1` when
`len = 0`) and stores it in the `int` field. -/
def eof_start (len : Nat) : Int := to_int32 ((len + (2 ^ 64 - 1)) % 2 ^ 64)

/-- The end-of-input token's `end` field: `lexer->source->len` stored in
the `int` field. -/
def eof_stop (len : Nat) : Int := to_int32 (len % 2 ^ 64)

/-- C source `skip_whitespace` (lexer.c). -/
def skip_whitespace (l : lexer) : lexer :=
  { l with index := scan_while is_whitespace l.source l.index }

/-- C source `tokenize_ident` (lexer.c): maximal run of identifier characters,
always tagged `TOKEN_IDENT` (there is no reserved-word check). -/
def tokenize_ident (l : lexer) : lexer × token :=
  let e := scan_while is_ident l.source l.index
  ({ l with index := e }, ⟨.TOKEN_IDENT, (l.index : Int), (e : Int)⟩)

/-- C source `tokenize_num` (lexer.c): maximal run of digits. -/
def tokenize_num (l : lexer) : lexer × token :=
  let e := scan_while is_number l.source l.index
  ({ l with index := e }, ⟨.TOKEN_INT_LIT, (l.index : Int), (e : Int)⟩)

/-- The diagnostic text pushed by `tokenize_misc` for a byte that is not
punctuation: `"Found illegal character '%c'"`. -/
def illegal_msg (c : Char) : String :=
  "Found illegal character '" ++ String.singleton c ++ "'"

/-- C source `tokenize_misc` (lexer.c): consume one byte; punctuation yields its
token kind, anything else yields `TOKEN_ERROR` plus one diagnostic. -/
def tokenize_misc (l : lexer) : lexer × token × List error :=
  let c := char_at l.source l.index
  let td : token_tag × List error :=
    if c = '(' then (.TOKEN_LPAREN, [])
    else if c = ')' then (.TOKEN_RPAREN, [])
    else if c = '\x7b' then (.TOKEN_LCURLY, [])
    else if c = '\x7d' then (.TOKEN_RCURLY, [])
    else if c = ':' then (.TOKEN_COLON, [])
    else if c = ';' then (.TOKEN_SEMICOLON, [])
    else if c = ',' then (.TOKEN_COMMA, [])
    else (.TOKEN_ERROR, [⟨l.source, illegal_msg c⟩])
  ({ l with index := l.index + 1 }, ⟨td.1, (l.index : Int), (l.index : Int) + 1⟩, td.2)

/-- C source `lexer_init` (lexer.c): cursor at offset 0 (the `err_ctx` pointer is
not part of the embedded state). -/
def lexer_init (source : source_info) : lexer := ⟨source, 0⟩

/-- C source `lexer_next` (lexer.c): skip whitespace, emit the end-of-input token
at or past the end of the buffer, otherwise dispatch on the current byte
(digits before identifier characters, as in the C `if` chain). -/
def lexer_next (l : lexer) : lexer × token × List error :=
  let l := skip_whitespace l
  if l.source.len ≤ l.index then
    (l, ⟨.TOKEN_EOF, eof_start l.source.len, eof_stop l.source.len⟩, [])
  else
    let next := char_at l.source l.index
    if is_number next then
      ((tokenize_num l).1, (tokenize_num l).2, [])
    else if is_ident next then
      ((tokenize_ident l).1, (tokenize_ident l).2, [])
    else
      tokenize_misc l

/-- One complete lexing pass, as run by the `do { lexer_next(...) } while
(token.tag != TOKEN_EOF)` loop in main.c: the produced tokens (including
the final end-of-input token) and the pushed diagnostics, in order.
`source.len + 1` calls always suffice, since every token before
end-of-input advances the cursor by at least one byte (see the progress
theorem below). -/
def lex_all : Nat → lexer → List token × List error
  | 0, _ => ([], [])
  | fuel + 1, l =>
    let (l', t, es) := lexer_next l
    if t.tag = .TOKEN_EOF then ([t], es)
    else
      let (ts, es') := lex_all fuel l'
      (t :: ts, es ++ es')

/-- Lex a whole buffer with a freshly initialized lexer. -/
def lexer_run (s : source_info) : List token × List error :=
  lex_all (s.len + 1) (lexer_init s)

/-- Iterated lexer states: `lex_steps l n` is the lexer after `n` calls to
`lexer_next`. -/
def lex_steps (l : lexer) : Nat → lexer
  | 0 => l
  | n + 1 => (lexer_next (lex_steps l n)).1

example : lexer_run ⟨"t", "var1".data⟩ =
    ([⟨.TOKEN_IDENT, 0, 4⟩, ⟨.TOKEN_EOF, 3, 4⟩], []) := by decide

example : lexer_run ⟨"t", "a%b".data⟩ =
    ([⟨.TOKEN_IDENT, 0, 1⟩, ⟨.TOKEN_ERROR, 1, 2⟩, ⟨.TOKEN_IDENT, 2, 3⟩,
      ⟨.TOKEN_EOF, 2, 3⟩],
     [⟨⟨"t", "a%b".data⟩, "Found illegal character '%'"⟩]) := by decide

example : lexer_run ⟨"t", "".data⟩ = ([⟨.TOKEN_EOF, -1, 0⟩], []) := by decide

/-- C source `enum ast_tag` (ast.h), generated by `FOREACH_AST_NODE`. -/
inductive ast_tag where
  | AST_MODULE
  | AST_FUNC_DECL
  | AST_BLOCK
  | AST_VAR_DECL
  | AST_VAR_GET
  | AST_INT_LIT
  | AST_TYPE_NAME
deriving DecidableEq, Repr

/-- C source `ast_tag_tostring` (ast.c), generated by the stringizing macro. -/
def ast_tag_tostring : ast_tag → String
  | .AST_MODULE => "MODULE"
  | .AST_FUNC_DECL => "FUNC_DECL"
  | .AST_BLOCK => "BLOCK"
  | .AST_VAR_DECL => "VAR_DECL"
  | .AST_VAR_GET => "VAR_GET"
  | .AST_INT_LIT => "INT_LIT"
  | .AST_TYPE_NAME => "TYPE_NAME"

/-- C source `struct ast_node` (ast.h): tag, textual payload (`string`, a
`char[128]`), `number` (C `int`), owned children in order, and the source
offset `source_index`.  The `source` back-pointer and the
capacity bookkeeping of the child array are memory-management details with
no observable effect on the embedded operations and are omitted. -/
inductive ast_node where
  | mk (tag : ast_tag) (string : String) (number : Int)
       (children : List ast_node) (source_index : Int)

def ast_node.tag : ast_node → ast_tag
  | .mk t _ _ _ _ => t

def ast_node.string : ast_node → String
  | .mk _ s _ _ _ => s

def ast_node.number : ast_node → Int
  | .mk _ _ n _ _ => n

def ast_node.children : ast_node → List ast_node
  | .mk _ _ _ cs _ => cs

def ast_node.source_index : ast_node → Int
  | .mk _ _ _ _ si => si

/-- C source `node->tag = ...` after `node_from_token` in the parser. -/
def ast_node.with_tag : ast_node → ast_tag → ast_node
  | .mk _ s n cs si, t => .mk t s n cs si

/-- C source `ast_init` (ast.c): the designated initializer zeroes every field the
C code later reads — `number = 0`, no children, `string` memset to empty,
and the unnamed `tag`/`source_index` fields zero-initialized (`tag = 0` is
`AST_MODULE`, the first enumerator). -/
def ast_init : ast_node := .mk .AST_MODULE "" 0 [] 0

/-- C source `ast_push_child` (ast.c): append `child` to `parent`'s list, order
preserved (the doubling of `child_capacity` only affects allocation). -/
def ast_push_child (parent child : ast_node) : ast_node :=
  match parent with
  | .mk t s n cs si => .mk t s n (cs ++ [child]) si

mutual
/-- C source `ast_sprintf` (ast.c): append a node's rendering to `buffer` and
return the advanced buffer, exactly as the C threads the `char *` cursor:
the header via
`sprintf(buffer, "{tag:\"%s\",string:\"%s\",number:%d,children:[", ...)`,
then each child followed by `sprintf(buffer, ",")`, then `"]}"`. -/
def ast_sprintf (buffer : String) : ast_node → String
  | .mk tag s n children _ =>
    let b1 := buffer ++ "\x7btag:\"" ++ ast_tag_tostring tag ++ "\",string:\"" ++ s
      ++ "\",number:" ++ toString n ++ ",children:["
    ast_sprintf_children b1 children ++ "]\x7d"

/-- The `for (i = 0; i < node->child_count; i++)` loop of `ast_sprintf`:
render each child into the buffer, each followed by a comma. -/
def ast_sprintf_children (buffer : String) : List ast_node → String
  | [] => buffer
  | c :: rest => ast_sprintf_children (ast_sprintf buffer c ++ ",") rest
end

/-- C source `ast_dump` (ast.c): render the tree into a fresh buffer (`sprintf`
starts writing at the front of the stack buffer, so its prior contents are
irrelevant). -/
def ast_dump (root : ast_node) : String := ast_sprintf "" root

mutual
/-- The AST dump format as the spec states it (§6): per node, exactly
`{tag:"<AstKind>",string:"<label>",number:<numericValue>,children:[...]}`
recursively, with a trailing comma after every child element including the
last.  Written from the spec's words, to be compared with `ast_sprintf`. -/
def ast_dump_spec : ast_node → String
  | .mk tag s n children _ =>
    "\x7btag:\"" ++ ast_tag_tostring tag ++ "\",string:\"" ++ s
      ++ "\",number:" ++ toString n ++ ",children:["
      ++ ast_dump_spec_children children ++ "]\x7d"

/-- Children in list order, each child element followed by a comma. -/
def ast_dump_spec_children : List ast_node → String
  | [] => ""
  | c :: rest => ast_dump_spec c ++ "," ++ ast_dump_spec_children rest
end

/-- C source `struct parser` (parser.h).  The C field `lexer` is a pointer to the
lexer; it is named `lex` here because `lexer` is the type's name. -/
structure parser where
  source : source_info
  lex : lexer
  previous : token
  current : token
deriving DecidableEq, Repr

/-- C source `parser_advance` (parser.c): shift `current` into `previous` and pull
the next token from the lexer. -/
def parser_advance (p : parser) : parser × List error :=
  let r := lexer_next p.lex
  ({ p with lex := r.1, previous := p.current, current := r.2.1 }, r.2.2)

/-- The diagnostic text pushed by `parser_expect` on a mismatch. -/
def expect_msg (want found : token_tag) : String :=
  "Expected token of type \"" ++ token_tag_tostring want
    ++ "\", instead found token of type \"" ++ token_tag_tostring found ++ "\""

/-- C source `parser_expect` (parser.c): on a tag match, hand out `previous` and
advance; otherwise push one diagnostic and fail with the state unchanged. -/
def parser_expect (p : parser) (tag : token_tag) : Option token × parser × List error :=
  if p.previous.tag = tag then
    (some p.previous, (parser_advance p).1, (parser_advance p).2)
  else
    (none, p, [⟨p.source, expect_msg tag p.previous.tag⟩])

/-- C source `parse_top_level` (parser.c): the body is a stub, `return NULL`. -/
def parse_top_level (p : parser) : Option ast_node × parser × List error :=
  (none, p, [])

/-- C source `parse_func_decl` (parser.c): stub, `return NULL`. -/
def parse_func_decl (p : parser) : Option ast_node × parser × List error :=
  (none, p, [])

/-- C source `parse_stmt` (parser.c): stub, `return NULL`. -/
def parse_stmt (p : parser) : Option ast_node × parser × List error :=
  (none, p, [])

/-- C source `parse_block` (parser.c): stub, `return NULL`. -/
def parse_block (p : parser) : Option ast_node × parser × List error :=
  (none, p, [])

/-- C source `parse_expr` (parser.c): stub, `return NULL`. -/
def parse_expr (p : parser) : Option ast_node × parser × List error :=
  (none, p, [])

/-- C source `parse_var_decl` (parser.c): stub, `return NULL`. -/
def parse_var_decl (p : parser) : Option ast_node × parser × List error :=
  (none, p, [])

/-- C source `parse_var_get` (parser.c): stub, `return NULL`. -/
def parse_var_get (p : parser) : Option ast_node × parser × List error :=
  (none, p, [])

/-- Modelled from the spec: `token_as_string` is called at parser.c:32 but
defined nowhere in the sources.  Per the spec (§3), a token carries "only
a span that must be resolved against the originating SourceBuffer to
recover text", so this copies the span `[start, end)` out of the buffer. -/
def token_as_string (source : source_info) (tok : token) : String :=
  String.mk ((source.raw.drop tok.start.toNat).take (tok.stop - tok.start).toNat)

/-- The decimal value of a digit string. -/
def digits_val (cs : List Char) : Nat :=
  cs.foldl (fun a c => a * 10 + (c.toNat - 48)) 0

/-- The C library `atoi` on the non-negative digit strings the parser
feeds it: the decimal value of the leading digit run.  Out-of-range
results are undefined behavior in ISO C; the mainstream implementation
(`(int)strtol(s, NULL, 10)`: saturate to the 64-bit `long` range, then
truncate to 32 bits) is embedded, and every theorem below that relies on
the out-of-range case stays inside the non-saturating range where all
common implementations agree. -/
def atoi (s : String) : Int :=
  to_int32 (min (digits_val (s.data.takeWhile is_number)) (2 ^ 63 - 1))

/-- C source `node_from_token` (parser.c): a fresh node (`ast_init` defaults), its
`string` filled from the token's source text, `number` filled by `atoi`
for integer literals, and `source_index` set to the token's start. -/
def node_from_token (source : source_info) (tok : token) : ast_node :=
  let s := token_as_string source tok
  .mk .AST_MODULE s (if tok.tag = .TOKEN_INT_LIT then atoi s else 0) [] tok.start

/-- C source `parse_int_lit` (parser.c): expect an integer-literal token, build the
node from it and retag it `AST_INT_LIT`. -/
def parse_int_lit (p : parser) : Option ast_node × parser × List error :=
  match parser_expect p .TOKEN_INT_LIT with
  | (none, p', es) => (none, p', es)
  | (some tok, p', es) =>
    (some ((node_from_token p.source tok).with_tag .AST_INT_LIT), p', es)

/-- C source `parser_parse` (parser.c): build the `AST_MODULE` node labeled with the
filename, prime `previous`/`current` with two advances, then run
`while (current.tag != TOKEN_EOF)`; each iteration calls `parse_top_level`
and aborts with NULL when it fails.  `parse_top_level` is the stub that
always returns NULL (see `parse_top_level_none`), so the loop either exits
immediately on end-of-input or aborts on its first iteration — it never
appends a child. -/
def parser_parse (p : parser) : Option ast_node × parser × List error :=
  let node : ast_node := .mk .AST_MODULE p.source.filename 0 [] 0
  let (p1, e1) := parser_advance p
  let (p2, e2) := parser_advance p1
  if p2.current.tag = .TOKEN_EOF then
    (some node, p2, e1 ++ e2)
  else
    match parse_top_level p2 with
    | (_, p', e') => (none, p', e1 ++ e2 ++ e')

/-- The grammar-rule stub behind `parser_parse`'s loop really is constant:
it fails on every state without touching it. -/
theorem parse_top_level_none (p : parser) : parse_top_level p = (none, p, []) := rfl

/-- The parser state over `s` after the two priming `parser_advance` calls
that `parser_parse` performs before entering its loop, together with any
diagnostics those two lexer pulls push.  The C `previous`/`current` fields
are uninitialized before the priming and are fully overwritten by it, so
their initial values `t0`, `t1` are free parameters. -/
def parser_primed (s : source_info) (t0 t1 : token) : parser × List error :=
  let (p1, e1) := parser_advance ⟨s, lexer_init s, t0, t1⟩
  let (p2, e2) := parser_advance p1
  (p2, e1 ++ e2)

example :
    (parse_int_lit (parser_primed ⟨"t", "37".data⟩ ⟨.TOKEN_EOF, 0, 0⟩ ⟨.TOKEN_EOF, 0, 0⟩).1).1
      = some (.mk .AST_INT_LIT "37" 37 [] 0) := by rfl

example :
    (parser_parse ⟨⟨"t", "1 2".data⟩, lexer_init ⟨"t", "1 2".data⟩, ⟨.TOKEN_EOF, 0, 0⟩,
      ⟨.TOKEN_EOF, 0, 0⟩⟩).1 = none := by rfl

example :
    (parser_parse ⟨⟨"t", "1".data⟩, lexer_init ⟨"t", "1".data⟩, ⟨.TOKEN_EOF, 0, 0⟩,
      ⟨.TOKEN_EOF, 0, 0⟩⟩).1 = some (.mk .AST_MODULE "t" 0 [] 0) := by rfl

example :
    (parser_parse ⟨⟨"t", "".data⟩, lexer_init ⟨"t", "".data⟩, ⟨.TOKEN_EOF, 0, 0⟩,
      ⟨.TOKEN_EOF, 0, 0⟩⟩).1 = some (.mk .AST_MODULE "t" 0 [] 0) := by rfl

example :
    ast_dump (.mk .AST_MODULE "m" 0 [.mk .AST_INT_LIT "7" 7 [] 0] 0)
      = "\x7btag:\"MODULE\",string:\"m\",number:0,children:[\x7btag:\"INT_LIT\",string:\"7\",number:7,children:[]\x7d,]\x7d" := by rfl


theorem ws_cases (c : Char) (h : is_whitespace c) : c = ' ' ∨ c = '\n' ∨ c = '\t' := by
  unfold is_whitespace at h
  simpa [Bool.or_eq_true, decide_eq_true_eq, or_assoc] using h

theorem is_number_not_ws (c : Char) (hn : is_number c) : ¬ is_whitespace c := by
  intro hw
  rcases ws_cases c hw with h | h | h <;> subst h <;> exact absurd hn (by decide)

theorem eof_start_pos (len : Nat) (h0 : 0 < len) (h1 : len < 2 ^ 31) :
    eof_start len = (len : Int) - 1 := by
  unfold eof_start to_int32
  have e1 : (len + (2 ^ 64 - 1)) % 2 ^ 64 = len - 1 := by omega
  have e2 : (len - 1) % 2 ^ 32 = len - 1 := by omega
  rw [e1, e2, if_pos (by omega : len - 1 < 2 ^ 31)]
  omega

theorem eof_start_zero : eof_start 0 = -1 := by decide

theorem eof_stop_small (len : Nat) (h1 : len < 2 ^ 31) : eof_stop len = (len : Int) := by
  unfold eof_stop to_int32
  have e1 : len % 2 ^ 64 = len := by omega
  have e2 : len % 2 ^ 32 = len := by omega
  rw [e1, e2, if_pos h1]

/-- Unfolding lemma for `lexer_next`: the end-of-input case: after whitespace skipping the cursor
is at or past the buffer length. -/
theorem lexer_next_eof (s : source_info) (i : Nat)
    (hge : s.len ≤ scan_while is_whitespace s i) :
    lexer_next ⟨s, i⟩ = (⟨s, scan_while is_whitespace s i⟩,
      ⟨.TOKEN_EOF, eof_start s.len, eof_stop s.len⟩, []) := by
  simp only [lexer_next, skip_whitespace]
  rw [if_pos hge]

/-- Unfolding lemma for `lexer_next`: the digit case. -/
theorem lexer_next_num (s : source_info) (i : Nat)
    (hlt : scan_while is_whitespace s i < s.len)
    (hnum : is_number (char_at s (scan_while is_whitespace s i))) :
    lexer_next ⟨s, i⟩ =
      (⟨s, scan_while is_number s (scan_while is_whitespace s i)⟩,
       ⟨.TOKEN_INT_LIT, (scan_while is_whitespace s i : Int),
        (scan_while is_number s (scan_while is_whitespace s i) : Int)⟩, []) := by
  simp only [lexer_next, skip_whitespace, tokenize_num]
  rw [if_neg (by omega), if_pos hnum]

/-- Unfolding lemma for `lexer_next`: the identifier case. -/
theorem lexer_next_ident (s : source_info) (i : Nat)
    (hlt : scan_while is_whitespace s i < s.len)
    (hnn : ¬ is_number (char_at s (scan_while is_whitespace s i)))
    (hid : is_ident (char_at s (scan_while is_whitespace s i))) :
    lexer_next ⟨s, i⟩ =
      (⟨s, scan_while is_ident s (scan_while is_whitespace s i)⟩,
       ⟨.TOKEN_IDENT, (scan_while is_whitespace s i : Int),
        (scan_while is_ident s (scan_while is_whitespace s i) : Int)⟩, []) := by
  simp only [lexer_next, skip_whitespace, tokenize_ident]
  rw [if_neg (by omega), if_neg hnn, if_pos hid]

/-- Unfolding lemma for `lexer_next`: the punctuation / illegal-byte case. -/
theorem lexer_next_misc (s : source_info) (i : Nat)
    (hlt : scan_while is_whitespace s i < s.len)
    (hnn : ¬ is_number (char_at s (scan_while is_whitespace s i)))
    (hni : ¬ is_ident (char_at s (scan_while is_whitespace s i))) :
    lexer_next ⟨s, i⟩ = tokenize_misc ⟨s, scan_while is_whitespace s i⟩ := by
  simp only [lexer_next, skip_whitespace]
  rw [if_neg (by omega), if_neg hnn, if_neg hni]

/-- The source buffer a lexer scans is never changed by `lexer_next`. -/
theorem lexer_next_source (l : lexer) : (lexer_next l).1.source = l.source := by
  obtain ⟨s, i⟩ := l
  by_cases hge : s.len ≤ scan_while is_whitespace s i
  · rw [lexer_next_eof s i hge]
  · have hlt : scan_while is_whitespace s i < s.len := by omega
    by_cases hnum : is_number (char_at s (scan_while is_whitespace s i))
    · rw [lexer_next_num s i hlt hnum]
    · by_cases hid : is_ident (char_at s (scan_while is_whitespace s i))
      · rw [lexer_next_ident s i hlt hnum hid]
      · rw [lexer_next_misc s i hlt hnum hid]
        rfl

/-- C2: for a letter/underscore start byte the lexer consumes the maximal
identifier run, but the reserved-word check the claim describes does not
exist: lexing `"var"` yields an IDENT token spanning all three bytes (not
the claimed KEYWORD_VAR token, which no `lexer_next` branch ever
produces), while `"var1"` yields one four-byte IDENT token as claimed. -/
theorem c2_var_lexes_as_ident :
    lexer_run ⟨"kw.test", "var".data⟩ = ([⟨.TOKEN_IDENT, 0, 3⟩, ⟨.TOKEN_EOF, 2, 3⟩], [])
    ∧ lexer_run ⟨"kw.test", "var1".data⟩ = ([⟨.TOKEN_IDENT, 0, 4⟩, ⟨.TOKEN_EOF, 3, 4⟩], [])
    ∧ ∀ l : lexer, (lexer_next l).2.1.tag ≠ token_tag.TOKEN_KEYWORD_VAR := by
  refine ⟨by decide, by decide, ?_⟩
  intro l
  obtain ⟨s, i⟩ := l
  by_cases hge : s.len ≤ scan_while is_whitespace s i
  · rw [lexer_next_eof s i hge]; simp
  · have hlt : scan_while is_whitespace s i < s.len := by omega
    by_cases hnum : is_number (char_at s (scan_while is_whitespace s i))
    · rw [lexer_next_num s i hlt hnum]; simp
    · by_cases hid : is_ident (char_at s (scan_while is_whitespace s i))
      · rw [lexer_next_ident s i hlt hnum hid]; simp
      · rw [lexer_next_misc s i hlt hnum hid]
        simp only [tokenize_misc]
        split_ifs <;> simp

def src_empty : source_info := ⟨"empty.test", []⟩

def src_one : source_info := ⟨"one.test", ['a']⟩

def src_ab : source_info := ⟨"ab.test", "a%b".data⟩

/-- C4 counterexample: on the empty buffer the end-of-input token's span
is not empty — `source->len - 1` underflows in `uint64_t` and lands in the
`int` field as `-1`, so `start = -1 ≠ 0 = end`. -/
theorem c4_counterexample :
    (lexer_next (lexer_init src_empty)).2.1 = ⟨.TOKEN_EOF, -1, 0⟩
    ∧ (lexer_next (lexer_init src_empty)).2.1.start
        ≠ (lexer_next (lexer_init src_empty)).2.1.stop := by
  decide

/-- C4 (amended): whenever the cursor is at or past the buffer length
after whitespace skipping, `lexer_next` returns an end-of-input token
spanning exactly the final byte `[len - 1, len)` of a non-empty buffer
(of `int`-representable length); on the empty buffer the token's span is
`[-1, 0)` — from the unsigned underflow — not the empty span the claim
states. -/
theorem c4_eof_token_span :
    (∀ (s : source_info) (i : Nat), 0 < s.len → s.len < 2 ^ 31 →
      s.len ≤ scan_while is_whitespace s i →
      lexer_next ⟨s, i⟩ =
        (⟨s, scan_while is_whitespace s i⟩,
         ⟨.TOKEN_EOF, (s.len : Int) - 1, (s.len : Int)⟩, []))
    ∧ ∀ (s : source_info) (i : Nat), s.len = 0 →
      lexer_next ⟨s, i⟩ = (⟨s, i⟩, ⟨.TOKEN_EOF, -1, 0⟩, []) := by
  constructor
  · intro s i h0 h1 hge
    rw [lexer_next_eof s i hge, eof_start_pos s.len h0 h1, eof_stop_small s.len h1]
  · intro s i hlen
    have hsw : scan_while is_whitespace s i = i :=
      scan_while_stop _ _ _ (by omega)
    have hge : s.len ≤ scan_while is_whitespace s i := by omega
    rw [lexer_next_eof s i hge, hsw, hlen, eof_start_zero]
    rfl

/-- Witness for C4: on the one-byte buffer `"a"` with the cursor past the
end the token spans the final byte `[0, 1)`; on the empty buffer it is
`[-1, 0)`. -/
theorem c4_eof_token_span_witness :
    lexer_next ⟨src_one, 1⟩ = (⟨src_one, 1⟩, ⟨.TOKEN_EOF, 0, 1⟩, [])
    ∧ lexer_next ⟨src_empty, 0⟩ = (⟨src_empty, 0⟩, ⟨.TOKEN_EOF, -1, 0⟩, []) := by
  constructor
  · have h := c4_eof_token_span.1 src_one 1 (by decide) (by decide) (by decide)
    exact h
  · exact c4_eof_token_span.2 src_empty 0 rfl

/-- C5 counterexample: the end-of-input token of the empty buffer has
`start = -1`, violating `0 ≤ start`. -/
theorem c5_counterexample :
    (lexer_next (lexer_init src_empty)).2.1 = ⟨.TOKEN_EOF, -1, 0⟩
    ∧ ¬ (0 ≤ (lexer_next (lexer_init src_empty)).2.1.start) := by
  decide

/-- C5 (amended): every token produced by `lexer_next`, on every buffer of
positive (`int`-representable) length and at every cursor position,
satisfies `0 ≤ start ≤ end ≤ len`; the empty buffer must be excluded,
since its end-of-input token has `start = -1`. -/
theorem c5_token_span_invariant (s : source_info) (i : Nat)
    (h0 : 0 < s.len) (h1 : s.len < 2 ^ 31) :
    0 ≤ ((lexer_next ⟨s, i⟩).2.1).start
    ∧ ((lexer_next ⟨s, i⟩).2.1).start ≤ ((lexer_next ⟨s, i⟩).2.1).stop
    ∧ ((lexer_next ⟨s, i⟩).2.1).stop ≤ (s.len : Int) := by
  by_cases hge : s.len ≤ scan_while is_whitespace s i
  · rw [lexer_next_eof s i hge, eof_start_pos s.len h0 h1, eof_stop_small s.len h1]
    refine ⟨?_, ?_, ?_⟩
    · show (0 : Int) ≤ (s.len : Int) - 1
      omega
    · show (s.len : Int) - 1 ≤ (s.len : Int)
      omega
    · show (s.len : Int) ≤ (s.len : Int)
      omega
  · have hlt : scan_while is_whitespace s i < s.len := by omega
    by_cases hnum : is_number (char_at s (scan_while is_whitespace s i))
    · rw [lexer_next_num s i hlt hnum]
      have h2 := le_scan_while is_number s (scan_while is_whitespace s i)
      have h3 := scan_while_le_len is_number s (scan_while is_whitespace s i) (le_of_lt hlt)
      refine ⟨?_, ?_, ?_⟩
      · show (0 : Int) ≤ (scan_while is_whitespace s i : Int)
        omega
      · show (scan_while is_whitespace s i : Int)
          ≤ (scan_while is_number s (scan_while is_whitespace s i) : Int)
        omega
      · show (scan_while is_number s (scan_while is_whitespace s i) : Int) ≤ (s.len : Int)
        omega
    · by_cases hid : is_ident (char_at s (scan_while is_whitespace s i))
      · rw [lexer_next_ident s i hlt hnum hid]
        have h2 := le_scan_while is_ident s (scan_while is_whitespace s i)
        have h3 := scan_while_le_len is_ident s (scan_while is_whitespace s i) (le_of_lt hlt)
        refine ⟨?_, ?_, ?_⟩
        · show (0 : Int) ≤ (scan_while is_whitespace s i : Int)
          omega
        · show (scan_while is_whitespace s i : Int)
            ≤ (scan_while is_ident s (scan_while is_whitespace s i) : Int)
          omega
        · show (scan_while is_ident s (scan_while is_whitespace s i) : Int) ≤ (s.len : Int)
          omega
      · rw [lexer_next_misc s i hlt hnum hid]
        refine ⟨?_, ?_, ?_⟩
        · show (0 : Int) ≤ (scan_while is_whitespace s i : Int)
          omega
        · show (scan_while is_whitespace s i : Int) ≤ (scan_while is_whitespace s i : Int) + 1
          omega
        · show (scan_while is_whitespace s i : Int) + 1 ≤ (s.len : Int)
          omega

/-- Witness for C5: the identifier token lexed at the start of `"a"`
satisfies the span invariant. -/
theorem c5_token_span_invariant_witness :
    0 ≤ ((lexer_next ⟨src_one, 0⟩).2.1).start
    ∧ ((lexer_next ⟨src_one, 0⟩).2.1).start ≤ ((lexer_next ⟨src_one, 0⟩).2.1).stop
    ∧ ((lexer_next ⟨src_one, 0⟩).2.1).stop ≤ (src_one.len : Int) :=
  c5_token_span_invariant src_one 0 (by decide) (by decide)

/-- C6: at a byte that is not whitespace, not a digit, not an identifier
character and not punctuation, `lexer_next` pushes exactly one
`Found illegal character '<c>'` diagnostic, advances the cursor by one
byte and returns an error token spanning that byte; lexing `"a%b"` then
yields IDENT, ERROR, IDENT, EOF with exactly one diagnostic. -/
theorem c6_illegal_char :
    (∀ (s : source_info) (i : Nat), i < s.len →
      ¬ is_whitespace (char_at s i) → ¬ is_number (char_at s i) →
      ¬ is_ident (char_at s i) →
      char_at s i ∉ (['(', ')', '\x7b', '\x7d', ':', ';', ','] : List Char) →
      lexer_next ⟨s, i⟩ =
        (⟨s, i + 1⟩, ⟨.TOKEN_ERROR, (i : Int), (i : Int) + 1⟩,
         [⟨s, illegal_msg (char_at s i)⟩]))
    ∧ lexer_run src_ab =
        ([⟨.TOKEN_IDENT, 0, 1⟩, ⟨.TOKEN_ERROR, 1, 2⟩, ⟨.TOKEN_IDENT, 2, 3⟩,
          ⟨.TOKEN_EOF, 2, 3⟩],
         [⟨src_ab, "Found illegal character '%'"⟩]) := by
  constructor
  · intro s i hi hw hn hid hp
    have hws : scan_while is_whitespace s i = i :=
      scan_while_stop _ _ _ (fun h => hw h.2)
    have hmisc := lexer_next_misc s i (by rw [hws]; exact hi) (by rw [hws]; exact hn)
      (by rw [hws]; exact hid)
    rw [hws] at hmisc
    rw [hmisc]
    simp only [List.mem_cons, List.not_mem_nil, or_false, not_or] at hp
    obtain ⟨h1, h2, h3, h4, h5, h6, h7⟩ := hp
    simp only [tokenize_misc]
    rw [if_neg h1, if_neg h2, if_neg h3, if_neg h4, if_neg h5, if_neg h6, if_neg h7]
  · decide

/-- Witness for C6: the `%` at offset 1 of `"a%b"` produces the error
token `[1, 2)` and the single diagnostic. -/
theorem c6_illegal_char_witness :
    lexer_next ⟨src_ab, 1⟩ =
      (⟨src_ab, 2⟩, ⟨.TOKEN_ERROR, 1, 2⟩,
       [⟨src_ab, "Found illegal character '%'"⟩]) := by
  have h := c6_illegal_char.1 src_ab 1 (by decide) (by decide) (by decide) (by decide)
    (by decide)
  exact h

/-- C3: `parser_expect kind` succeeds exactly when `previous.tag = kind`,
in which case it returns `previous` and performs one `parser_advance`;
otherwise it pushes exactly one diagnostic with the claimed message
(rendered through the upper-case `token_tag_tostring` names) and returns
failure with the parser state — in particular `previous` and `current` —
unchanged. -/
theorem c3_parser_expect (p : parser) (tag : token_tag) :
    (p.previous.tag = tag →
      parser_expect p tag = (some p.previous, (parser_advance p).1, (parser_advance p).2))
    ∧ (p.previous.tag ≠ tag →
      parser_expect p tag = (none, p, [⟨p.source, expect_msg tag p.previous.tag⟩])) := by
  constructor
  · intro h
    simp only [parser_expect, if_pos h]
  · intro h
    simp only [parser_expect, if_neg h]

def src_xcolon : source_info := ⟨"w.test", "x:".data⟩

def parser_w : parser :=
  ⟨src_xcolon, ⟨src_xcolon, 2⟩, ⟨.TOKEN_IDENT, 0, 1⟩, ⟨.TOKEN_COLON, 1, 2⟩⟩

/-- Witness for C3: expecting IDENT with `previous = IDENT` succeeds and
advances; expecting COLON there fails, leaves the state unchanged and
pushes the claimed message. -/
theorem c3_parser_expect_witness :
    parser_expect parser_w .TOKEN_IDENT
      = (some ⟨.TOKEN_IDENT, 0, 1⟩, (parser_advance parser_w).1, (parser_advance parser_w).2)
    ∧ parser_expect parser_w .TOKEN_COLON
      = (none, parser_w,
         [⟨src_xcolon,
           "Expected token of type \"COLON\", instead found token of type \"IDENT\""⟩]) :=
  ⟨(c3_parser_expect parser_w .TOKEN_IDENT).1 rfl,
   (c3_parser_expect parser_w .TOKEN_COLON).2 (by decide)⟩

theorem char_at_mem (s : source_info) (i : Nat) (h : i < s.len) : char_at s i ∈ s.raw := by
  unfold char_at
  rw [List.getD_eq_getElem _ _ h]
  exact List.getElem_mem h

theorem atoi_digits (cs : List Char) (hdig : ∀ c ∈ cs, is_number c)
    (hv : digits_val cs < 2 ^ 31) : atoi (String.mk cs) = (digits_val cs : Int) := by
  unfold atoi to_int32
  have hs : (String.mk cs).data = cs := rfl
  rw [hs, List.takeWhile_eq_self_iff.mpr hdig]
  have hmin : min (digits_val cs) (2 ^ 63 - 1) = digits_val cs := by omega
  rw [hmin, Nat.mod_eq_of_lt (by omega), if_pos hv]

theorem token_as_string_full (s : source_info) (tag : token_tag) :
    token_as_string s ⟨tag, 0, (s.len : Int)⟩ = String.mk s.raw := by
  unfold token_as_string source_info.len
  simp

/-- C7 (amended): for every source text that is a non-empty run of decimal
digits `d` whose value fits a 32-bit signed `int`, `parse_int_lit` (on the
parser primed over that text) produces an `AST_INT_LIT` node whose
`number` is the decimal value of `d` and whose `string` is `d` verbatim;
the `int`-range bound must be added because `number` is a C `int` filled
by `atoi`, which cannot represent larger values. -/
theorem c7_parse_int_lit (s : source_info) (t0 t1 : token)
    (hne : s.raw ≠ []) (hdig : ∀ c ∈ s.raw, is_number c)
    (hv : digits_val s.raw < 2 ^ 31) :
    (parse_int_lit (parser_primed s t0 t1).1).1 =
      some (.mk .AST_INT_LIT (String.mk s.raw) ((digits_val s.raw : Nat) : Int) [] 0) := by
  have h0 : 0 < s.len := List.length_pos.mpr hne
  have hws0 : scan_while is_whitespace s 0 = 0 :=
    scan_while_stop _ _ _ (fun h => is_number_not_ws _ (hdig _ (char_at_mem s 0 h.1)) h.2)
  have hnum0 : is_number (char_at s 0) := hdig _ (char_at_mem s 0 h0)
  have hall : scan_while is_number s 0 = s.len :=
    scan_while_all _ _ _ (fun j hj hlt => hdig _ (char_at_mem s j hlt)) (by omega)
  have hlex1 : lexer_next (lexer_init s)
      = (⟨s, s.len⟩, ⟨.TOKEN_INT_LIT, 0, (s.len : Int)⟩, []) := by
    have h := lexer_next_num s 0 (by rw [hws0]; exact h0) (by rw [hws0]; exact hnum0)
    rw [hws0, hall] at h
    exact h
  have hws1 : scan_while is_whitespace s s.len = s.len :=
    scan_while_stop _ _ _ (by omega)
  have hlex2 : lexer_next ⟨s, s.len⟩
      = (⟨s, s.len⟩, ⟨.TOKEN_EOF, eof_start s.len, eof_stop s.len⟩, []) := by
    have h := lexer_next_eof s s.len (by omega)
    rwa [hws1] at h
  have hp : (parser_primed s t0 t1).1
      = ⟨s, ⟨s, s.len⟩, ⟨.TOKEN_INT_LIT, 0, (s.len : Int)⟩,
         ⟨.TOKEN_EOF, eof_start s.len, eof_stop s.len⟩⟩ := by
    simp only [parser_primed, parser_advance, lexer_init] at hlex1 ⊢
    rw [hlex1]
    simp only []
    rw [hlex2]
  rw [hp]
  have hexp : parser_expect
      (⟨s, ⟨s, s.len⟩, ⟨.TOKEN_INT_LIT, 0, (s.len : Int)⟩,
        ⟨.TOKEN_EOF, eof_start s.len, eof_stop s.len⟩⟩ : parser) .TOKEN_INT_LIT
      = (some ⟨.TOKEN_INT_LIT, 0, (s.len : Int)⟩,
         (parser_advance ⟨s, ⟨s, s.len⟩, ⟨.TOKEN_INT_LIT, 0, (s.len : Int)⟩,
           ⟨.TOKEN_EOF, eof_start s.len, eof_stop s.len⟩⟩).1,
         (parser_advance ⟨s, ⟨s, s.len⟩, ⟨.TOKEN_INT_LIT, 0, (s.len : Int)⟩,
           ⟨.TOKEN_EOF, eof_start s.len, eof_stop s.len⟩⟩).2) := by
    simp only [parser_expect]
    rw [if_true]
  simp only [parse_int_lit, hexp, node_from_token, token_as_string_full,
    atoi_digits s.raw hdig hv, ast_node.with_tag, if_true]

/-- Witness for C7: the digit run `"37"` parses to an `AST_INT_LIT` node
with `number = 37` and `string = "37"`. -/
theorem c7_parse_int_lit_witness :
    (parse_int_lit (parser_primed ⟨"n.test", "37".data⟩ ⟨.TOKEN_EOF, 0, 0⟩
        ⟨.TOKEN_EOF, 0, 0⟩).1).1
      = some (.mk .AST_INT_LIT "37" 37 [] 0) := by
  have h := c7_parse_int_lit ⟨"n.test", "37".data⟩ ⟨.TOKEN_EOF, 0, 0⟩ ⟨.TOKEN_EOF, 0, 0⟩
    (by decide) (by decide) (by decide)
  exact h

def src_big : source_info := ⟨"big.test", "2147483648".data⟩

/-- C7 counterexample: on the digit run `"2147483648"` (`2^31`, one past
`INT_MAX`) the produced node's `number` is `-2147483648`, not the decimal
value `2147483648` the claim requires — `atoi` stores the value into the
32-bit `int` field. -/
theorem c7_counterexample :
    ((parse_int_lit (parser_primed src_big ⟨.TOKEN_EOF, 0, 0⟩ ⟨.TOKEN_EOF, 0, 0⟩).1).1.map
        ast_node.number) = some (-2147483648 : Int)
    ∧ ((parse_int_lit (parser_primed src_big ⟨.TOKEN_EOF, 0, 0⟩ ⟨.TOKEN_EOF, 0, 0⟩).1).1.map
        ast_node.number) ≠ some ((2147483648 : Int)) := by
  refine ⟨by decide, by decide⟩

theorem str_append_assoc (a b c : String) : a ++ b ++ c = a ++ (b ++ c) := by
  rcases a with ⟨a⟩; rcases b with ⟨b⟩; rcases c with ⟨c⟩
  show String.mk (a ++ b ++ c) = String.mk (a ++ (b ++ c))
  rw [List.append_assoc]

theorem str_empty_append (s : String) : "" ++ s = s := by
  rcases s with ⟨s⟩
  show String.mk ([] ++ s) = String.mk s
  rw [List.nil_append]

mutual
theorem ast_sprintf_spec : ∀ (n : ast_node) (buffer : String),
    ast_sprintf buffer n = buffer ++ ast_dump_spec n
  | .mk t s num cs si, buffer => by
    simp only [ast_sprintf, ast_dump_spec]
    rw [ast_sprintf_children_spec cs]
    simp only [str_append_assoc]

theorem ast_sprintf_children_spec : ∀ (cs : List ast_node) (buffer : String),
    ast_sprintf_children buffer cs = buffer ++ ast_dump_spec_children cs
  | [], buffer => by
    simp only [ast_sprintf_children, ast_dump_spec_children]
    rcases buffer with ⟨b⟩
    show String.mk b = String.mk (b ++ [])
    rw [List.append_nil]
  | c :: rest, buffer => by
    simp only [ast_sprintf_children, ast_dump_spec_children]
    rw [ast_sprintf_children_spec rest, ast_sprintf_spec c]
    simp only [str_append_assoc]
end

/-- C8: `ast_sprintf` appends, after the incoming buffer, exactly the
spec's dump text `{tag:"<k>",string:"<s>",number:<n>,children:[...]}` for
every node, children in list order, each child element followed by a
trailing comma (including the last); `ast_dump` renders exactly that text. -/
theorem c8_ast_dump_format :
    (∀ (buffer : String) (n : ast_node), ast_sprintf buffer n = buffer ++ ast_dump_spec n)
    ∧ ∀ n : ast_node, ast_dump n = ast_dump_spec n := by
  constructor
  · intro b n
    exact ast_sprintf_spec n b
  · intro n
    show ast_sprintf "" n = _
    rw [ast_sprintf_spec n "", str_empty_append]

/-- C9: lexing a buffer to end-of-input with a freshly initialized lexer
yields exactly the token sequence (tags and spans) of any other complete
pass with a freshly initialized lexer over the same buffer: the lexer's
only state is the cursor, reset by `lexer_init`. -/
theorem c9_lexing_deterministic (s : source_info) (l1 l2 : lexer)
    (h1 : l1 = lexer_init s) (h2 : l2 = lexer_init s) :
    lex_all (s.len + 1) l1 = lex_all (s.len + 1) l2 := by
  subst h1
  subst h2
  rfl

/-- Witness for C9: two fresh passes over `"a%b"` agree. -/
theorem c9_lexing_deterministic_witness :
    lex_all (src_ab.len + 1) (lexer_init src_ab)
      = lex_all (src_ab.len + 1) (lexer_init src_ab) :=
  c9_lexing_deterministic src_ab (lexer_init src_ab) (lexer_init src_ab) rfl rfl

theorem lexer_next_eof_of_ge (l : lexer) (h : l.source.len ≤ l.index) :
    (lexer_next l).2.1.tag = token_tag.TOKEN_EOF := by
  obtain ⟨s, i⟩ := l
  rw [lexer_next_eof s i (le_trans h (le_scan_while is_whitespace s i))]

theorem lexer_next_progress (l : lexer) :
    (lexer_next l).2.1.tag = token_tag.TOKEN_EOF ∨ l.index < (lexer_next l).1.index := by
  obtain ⟨s, i⟩ := l
  by_cases hge : s.len ≤ scan_while is_whitespace s i
  · rw [lexer_next_eof s i hge]
    left
    rfl
  · right
    have hlt : scan_while is_whitespace s i < s.len := by omega
    have hle := le_scan_while is_whitespace s i
    by_cases hnum : is_number (char_at s (scan_while is_whitespace s i))
    · rw [lexer_next_num s i hlt hnum]
      have h2 := le_scan_while is_number s (scan_while is_whitespace s i + 1)
      have h3 := scan_while_step is_number s (scan_while is_whitespace s i) hlt hnum
      show i < scan_while is_number s (scan_while is_whitespace s i)
      omega
    · by_cases hid : is_ident (char_at s (scan_while is_whitespace s i))
      · rw [lexer_next_ident s i hlt hnum hid]
        have h2 := le_scan_while is_ident s (scan_while is_whitespace s i + 1)
        have h3 := scan_while_step is_ident s (scan_while is_whitespace s i) hlt hid
        show i < scan_while is_ident s (scan_while is_whitespace s i)
        omega
      · rw [lexer_next_misc s i hlt hnum hid]
        show i < scan_while is_whitespace s i + 1
        omega

theorem lex_steps_shift (l : lexer) (n : Nat) :
    lex_steps l (n + 1) = lex_steps ((lexer_next l).1) n := by
  induction n with
  | zero => rfl
  | succ k ih =>
    show (lexer_next (lex_steps l (k + 1))).1 = (lexer_next (lex_steps ((lexer_next l).1) k)).1
    rw [ih]

/-- C10: every `lexer_next` call either returns an end-of-input token or
strictly advances the cursor; consequently, from every lexer state,
iterating `lexer_next` reaches an end-of-input token after finitely many
calls. -/
theorem c10_lexer_progress_terminates :
    (∀ l : lexer,
      (lexer_next l).2.1.tag = token_tag.TOKEN_EOF ∨ l.index < (lexer_next l).1.index)
    ∧ ∀ l : lexer, ∃ n, (lexer_next (lex_steps l n)).2.1.tag = token_tag.TOKEN_EOF := by
  constructor
  · exact lexer_next_progress
  · intro l0
    suffices h : ∀ (m : Nat) (l : lexer), l.source.len + 1 - l.index ≤ m →
        ∃ n, (lexer_next (lex_steps l n)).2.1.tag = token_tag.TOKEN_EOF by
      exact h (l0.source.len + 1 - l0.index) l0 le_rfl
    intro m
    induction m with
    | zero =>
      intro l hm
      exact ⟨0, lexer_next_eof_of_ge l (by omega)⟩
    | succ k ih =>
      intro l hm
      by_cases heof : (lexer_next l).2.1.tag = token_tag.TOKEN_EOF
      · exact ⟨0, heof⟩
      · have hidx : l.index < (lexer_next l).1.index := by
          rcases lexer_next_progress l with h | h
          · exact absurd h heof
          · exact h
        have hlen : l.index < l.source.len := by
          by_contra hge
          exact heof (lexer_next_eof_of_ge l (by omega))
        have hsrc : (lexer_next l).1.source = l.source := lexer_next_source l
        obtain ⟨n, hn⟩ := ih (lexer_next l).1 (by rw [hsrc]; omega)
        refine ⟨n + 1, ?_⟩
        rw [lex_steps_shift]
        exact hn

def src_c1 : source_info :=
  ⟨"main.lang", "func main(): Int \x7b var x: Int; x; \x7d".data⟩

set_option maxHeartbeats 1600000 in
/-- C1: the claimed well-formed parse in fact fails — with
`parse_top_level` stubbed to `return NULL`, `parser_parse` on
`"func main(): Int { var x: Int; x; }"` returns NULL instead of the
claimed Module/FuncDecl tree, whatever values the uninitialized
`previous`/`current` fields held. -/
theorem c1_parse_well_formed_func_fails (t0 t1 : token) :
    (parser_parse ⟨src_c1, lexer_init src_c1, t0, t1⟩).1 = none := by
  rfl
